import Mathlib

/-!
# Verification of the backup-protocol client (framing / parsing layer)

Shallow embedding of the protocol core of the client:

* `recv_exact`   — `NetworkManager.recv_exact` (byte-exact stream reader);
* `build_header` — `NetworkManager.build_header` (request header encoder);
* `send_request` — `Client._send_request` (header plus optional upload body);
* `receive_response` — `Client._receive_response` (response decoder);
* `write_file` / `restore_outcome` — the local-write behaviour of
  `FileManager.write_file` and `Client.request_restore_file`.

Bytes are modelled as `Nat` values below 256, byte strings as `List Nat`.
The TCP stream is modelled as a list of delivery fragments
(`List (List Nat)`): one `socket.recv` call hands over at most the head
fragment; an exhausted fragment list (or an empty fragment) is end-of-stream,
matching `recv` returning an empty bytes object on a closed connection.  Python exceptions
(`struct.error`, `UnicodeEncodeError`) are modelled by `Option`/flag results.
-/

/-- Little-endian encoding of `v` into `w` bytes, as produced by
`struct.pack("<I", v)` (`w = 4`), `struct.pack("<H", v)` (`w = 2`) and
`struct.pack("<B", v)` (`w = 1`) for in-range `v`. -/
def le_bytes : Nat → Nat → List Nat
  | 0, _ => []
  | w + 1, v => v % 256 :: le_bytes w (v / 256)

/-- Little-endian decoding of a byte list, as performed by
`struct.unpack("<B"/"<H"/"<I", data)`. -/
def from_le : List Nat → Nat
  | [] => 0
  | b :: r => b + 256 * from_le r

/-- Model of `str.encode("ascii")`: succeeds with the code points as bytes
exactly when every character is below 128, otherwise raises (here: `none`). -/
def ascii_encode (s : String) : Option (List Nat) :=
  if s.data.all (fun c => c.toNat < 128) then some (s.data.map Char.toNat) else none

/-- Model of `bytes.decode("ascii", errors="replace")`: code points of the
decoded string; bytes at or above 128 are replaced by U+FFFD instead of
rejected. -/
def decode_ascii_replace (bs : List Nat) : List Nat :=
  bs.map (fun b => if b < 128 then b else 0xFFFD)

/-- One `socket.recv(k)` call against the fragment model: delivers at most `k`
bytes taken from the head delivery fragment; on an exhausted stream it
delivers `[]` (the closed-connection signal). Returns the delivered bytes and
the remaining stream. -/
def sock_recv (frags : List (List Nat)) (k : Nat) : List Nat × List (List Nat) :=
  match frags with
  | [] => ([], [])
  | f :: rest =>
      if f.length ≤ k then (f, rest)
      else (f.take k, f.drop k :: rest)

/-- The accumulation loop of `NetworkManager.recv_exact`:
`while len(buf) < num_bytes: chunk = sock.recv(num_bytes - len(buf));
if not chunk: return None; buf += chunk`.  Each iteration either consumes a
whole delivery fragment or finishes, so the loop recurses structurally on the
fragment list. -/
def recv_exact_go (buf : List Nat) (num_bytes : Nat) :
    List (List Nat) → Option (List Nat × List (List Nat))
  | [] =>
      if buf.length < num_bytes then none
      else some (buf, [])
  | f :: rest =>
      if buf.length < num_bytes then
        if f.length = 0 then none
        else if f.length ≤ num_bytes - buf.length then
          recv_exact_go (buf ++ f) num_bytes rest
        else
          some (buf ++ f.take (num_bytes - buf.length),
                f.drop (num_bytes - buf.length) :: rest)
      else some (buf, f :: rest)

/-- Model of `NetworkManager.recv_exact(num_bytes)`: returns exactly `num_bytes` bytes
together with the rest of the stream, or `none` when the connection closes
first (the Python function returns `None`). -/
def recv_exact (frags : List (List Nat)) (num_bytes : Nat) :
    Option (List Nat × List (List Nat)) :=
  recv_exact_go [] num_bytes frags

/-- Model of `NetworkManager.build_header(user_id, version, op_code, filename)`:
`<I user_id | B version | B op_code | H name_len | filename>`; `none` models
the `struct.error` on an out-of-range field, the `UnicodeEncodeError` on a
non-ASCII filename, and the `struct.error` when the encoded filename exceeds
the 16-bit length field.  `if filename:` is false both for `None` and for the
empty string, so both fall to the `name_len = 0` branch. -/
def build_header (user_id version op_code : Nat) (filename : Option String) :
    Option (List Nat) :=
  if user_id < 2 ^ 32 ∧ version < 256 ∧ op_code < 256 then
    match filename with
    | some s =>
        if s.data.isEmpty then
          some (le_bytes 4 user_id ++ [version, op_code] ++ le_bytes 2 0)
        else
          match ascii_encode s with
          | none => none
          | some enc =>
              if enc.length < 2 ^ 16 then
                some (le_bytes 4 user_id ++ [version, op_code] ++
                      le_bytes 2 enc.length ++ enc)
              else none
    | none => some (le_bytes 4 user_id ++ [version, op_code] ++ le_bytes 2 0)
  else none

/-- Model of `Client._send_request(op_code, filename, file_path)`: the bytes actually
transmitted over the socket, paired with `true` on success and `false` when an
encoding step raised.  The header is sent first; for `op_code = 100`
(`BACKUP_FILE`) with a file present, a 4-byte little-endian file size follows
and then the file content (`read_file_chunks` concatenates to the content,
chunk boundaries are invisible on the stream). -/
def send_request (user_id version op_code : Nat) (filename : Option String)
    (file : Option (List Nat)) : List Nat × Bool :=
  match build_header user_id version op_code filename with
  | none => ([], false)
  | some header =>
      match file with
      | some content =>
          if op_code = 100 then
            if content.length < 2 ^ 32 then
              (header ++ le_bytes 4 content.length ++ content, true)
            else (header, false)
          else (header, true)
      | none => (header, true)

/-- The decoded response dictionary of `Client._receive_response`. -/
structure Response where
  version : Nat
  status : Nat
  name_len : Nat
  filename : Option (List Nat)
  size : Option Nat
  payload : Option (List Nat)
deriving DecidableEq, Repr

/-- The size/payload phase of `Client._receive_response` (the code after the
filename read): reads the 4-byte size and the payload only for the two
payload-bearing statuses, leaves `size = payload = None` otherwise, and does
not check the payload read for end-of-stream. -/
def receive_response_tail (server_version status name_len : Nat)
    (filename : Option (List Nat)) (s : List (List Nat)) :
    Option (Response × List (List Nat)) :=
  if status = 210 ∨ status = 211 then
    match recv_exact s 4 with
    | none => none
    | some (zb, s5) =>
        let size := from_le zb
        if size > 0 then
          match recv_exact s5 size with
          | none =>
              some ({ version := server_version, status := status,
                      name_len := name_len, filename := filename,
                      size := some size, payload := none }, [])
          | some (pb, s6) =>
              some ({ version := server_version, status := status,
                      name_len := name_len, filename := filename,
                      size := some size, payload := some pb }, s6)
        else
          some ({ version := server_version, status := status,
                  name_len := name_len, filename := filename,
                  size := some size, payload := none }, s5)
  else
    some ({ version := server_version, status := status,
            name_len := name_len, filename := filename,
            size := none, payload := none }, s)
/-- Model of `Client._receive_response()`: reads, in order, 1 byte (version), 2 bytes
(status, LE), 2 bytes (name_len, LE), `name_len` filename bytes when
`name_len > 0`, and — only when `status ∈ {210, 211}` — 4 bytes (size, LE)
followed, when `size > 0`, by `size` payload bytes.  Every read but the last
is followed by `if not data: return None`; the payload read result is stored
unchecked, so its end-of-stream leaves `payload = None` in a returned
response rather than failing the decode. -/
def receive_response (frags : List (List Nat)) :
    Option (Response × List (List Nat)) :=
  match recv_exact frags 1 with
  | none => none
  | some (vb, s1) =>
    let server_version := from_le vb
    match recv_exact s1 2 with
    | none => none
    | some (sb, s2) =>
      let status := from_le sb
      match recv_exact s2 2 with
      | none => none
      | some (nb, s3) =>
        let name_len := from_le nb
        if name_len > 0 then
          match recv_exact s3 name_len with
          | none => none
          | some (fb, s4) =>
              receive_response_tail server_version status name_len
                (some (decode_ascii_replace fb)) s4
        else
          receive_response_tail server_version status name_len none s3


/-- What happens to the destination file of a local write.  The first three
outcomes are the ones the code can produce; `failedNoTouch` is the outcome the
specification demands for a null payload (an error raised with the destination
file left untouched) and is producible by no code path. -/
inductive WriteOutcome where
  | noWrite
  | wrote (data : List Nat)
  | truncatedThenError
  | failedNoTouch
deriving DecidableEq, Repr

/-- Model of `FileManager.write_file(file_path, data)`: `open(file_path, "wb")` first
creates or truncates the destination, then `f.write(data)` writes the bytes
verbatim — or raises `TypeError` when `data` is `None`, after the truncation
already happened. -/
def write_file (data : Option (List Nat)) : WriteOutcome :=
  match data with
  | some d => WriteOutcome.wrote d
  | none => WriteOutcome.truncatedThenError

/-- The local-write effect of `Client.request_restore_file` on the destination
path, as a function of the decoded response: the `ERR_FILE_NOT_FOUND` (1001)
and `ERR_GENERAL` (1003) branches only print, every other status reaches
`self.file_manager.write_file(save_as, resp["payload"])`. -/
def restore_outcome (resp : Response) : WriteOutcome :=
  if resp.status = 1001 then WriteOutcome.noWrite
  else if resp.status = 1003 then WriteOutcome.noWrite
  else write_file resp.payload

/-- Modelled from the spec: the repository contains no request parser (there
is no server implementation), so the request wire layout of §6 —
`u32 user_id | u8 version | u8 op_code | u16 name_len | ascii[name_len]
filename`, all integers little-endian — is embedded here as the decoding
partner for the round-trip property.  `none` filename stands for
`name_len = 0`. -/
def parse_request_header (bs : List Nat) :
    Option (Nat × Nat × Nat × Option (List Nat)) :=
  match bs with
  | u0 :: u1 :: u2 :: u3 :: v :: op :: n0 :: n1 :: rest =>
      let nl := n0 + 256 * n1
      if rest.length = nl then
        some (u0 + 256 * u1 + 256 ^ 2 * u2 + 256 ^ 3 * u3, v, op,
              if nl = 0 then none else some rest)
      else none
  | _ => none

/-- The filename bytes the encoder puts on the wire: `None` and the empty
string both produce no filename bytes; a non-empty string contributes its
ASCII code points. -/
def encode_filename_opt (filename : Option String) : Option (List Nat) :=
  match filename with
  | none => none
  | some s => if s.data.isEmpty then none else some (s.data.map Char.toNat)

/-- The header-only phase of `Client._receive_response`: the version, status,
name_len and filename reads, with the stream state they leave behind.  Used to
express "no bytes beyond the header are consumed". -/
def read_header (frags : List (List Nat)) :
    Option (Nat × Nat × Nat × Option (List Nat) × List (List Nat)) :=
  match recv_exact frags 1 with
  | none => none
  | some (vb, s1) =>
    match recv_exact s1 2 with
    | none => none
    | some (sb, s2) =>
      match recv_exact s2 2 with
      | none => none
      | some (nb, s3) =>
        let name_len := from_le nb
        if name_len > 0 then
          match recv_exact s3 name_len with
          | none => none
          | some (fb, s4) =>
              some (from_le vb, from_le sb, name_len,
                    some (decode_ascii_replace fb), s4)
        else
          some (from_le vb, from_le sb, name_len, none, s3)


/-! ## The byte-exact stream reader -/

/-- Loop invariant of the accumulation in `recv_exact`: with fewer total bytes than
requested the loop hits end-of-stream and returns `none`; with enough bytes it
returns exactly the first `num_bytes` of `buf` followed by the stream, leaving
a remainder stream carrying exactly the unread bytes. -/
theorem recv_exact_go_spec (frags : List (List Nat)) :
    ∀ buf num_bytes, buf.length ≤ num_bytes → (∀ f ∈ frags, f ≠ []) →
      (frags.flatten.length + buf.length < num_bytes →
        recv_exact_go buf num_bytes frags = none) ∧
      (num_bytes ≤ buf.length + frags.flatten.length →
        ∃ rest, recv_exact_go buf num_bytes frags =
            some ((buf ++ frags.flatten).take num_bytes, rest) ∧
          rest.flatten = (buf ++ frags.flatten).drop num_bytes ∧
          ∀ f ∈ rest, f ≠ []) := by
  induction frags with
  | nil =>
      intro buf num_bytes hle _
      refine ⟨fun hlt => ?_, fun hge => ?_⟩
      · simp only [List.flatten_nil, List.length_nil] at hlt
        simp only [recv_exact_go]
        rw [if_pos (by omega)]
      · simp only [List.flatten_nil, List.length_nil] at hge
        have hbe : buf.length = num_bytes := by omega
        refine ⟨[], ?_, ?_, by simp⟩
        · simp only [recv_exact_go]
          rw [if_neg (by omega)]
          rw [List.flatten_nil, List.append_nil, ← hbe, List.take_length]
        · rw [List.flatten_nil, List.append_nil, ← hbe, List.drop_length]
  | cons f rest ih =>
      intro buf num_bytes hle hne
      have hf : f ≠ [] := hne f (by simp)
      have hflen : 0 < f.length := List.length_pos.2 hf
      have hner : ∀ g ∈ rest, g ≠ [] := fun g hg => hne g (by simp [hg])
      by_cases hbuf : buf.length < num_bytes
      · simp only [recv_exact_go, if_pos hbuf, if_neg (by omega : ¬ f.length = 0)]
        by_cases hfit : f.length ≤ num_bytes - buf.length
        · rw [if_pos hfit]
          have ihc := ih (buf ++ f) num_bytes (by simp only [List.length_append]; omega) hner
          refine ⟨fun hlt => ?_, fun hge => ?_⟩
          · apply ihc.1
            simp only [List.flatten_cons, List.length_append] at hlt ⊢
            omega
          · obtain ⟨r, hr, hjr, hnr⟩ := ihc.2 (by
              simp only [List.flatten_cons, List.length_append] at hge ⊢
              omega)
            refine ⟨r, ?_, ?_, hnr⟩
            · rw [hr, List.flatten_cons, List.append_assoc]
            · rw [hjr, List.flatten_cons, List.append_assoc]
        · rw [if_neg hfit]
          have hnfit : num_bytes - buf.length < f.length := by omega
          have hnlen : num_bytes ≤ buf.length + f.length := by omega
          have htake : (buf ++ (f :: rest).flatten).take num_bytes
              = buf ++ f.take (num_bytes - buf.length) := by
            rw [List.flatten_cons, ← List.append_assoc, List.take_append_eq_append_take,
                List.take_append_eq_append_take, List.take_of_length_le hle]
            simp [List.length_append, Nat.sub_eq_zero_of_le hnlen]
          have hdrop : (buf ++ (f :: rest).flatten).drop num_bytes
              = f.drop (num_bytes - buf.length) ++ rest.flatten := by
            rw [List.flatten_cons, ← List.append_assoc, List.drop_append_eq_append_drop,
                List.drop_append_eq_append_drop, List.drop_of_length_le hle]
            simp [List.length_append, Nat.sub_eq_zero_of_le hnlen]
          refine ⟨fun hlt => ?_, fun _ => ?_⟩
          · exfalso
            simp only [List.flatten_cons, List.length_append] at hlt
            omega
          · refine ⟨f.drop (num_bytes - buf.length) :: rest, ?_, ?_, ?_⟩
            · rw [htake]
            · rw [hdrop, List.flatten_cons]
            · intro g hg
              rcases List.mem_cons.1 hg with rfl | hg
              · simp only [ne_eq, List.drop_eq_nil_iff]
                omega
              · exact hner g hg
      · simp only [recv_exact_go, if_neg hbuf]
        have hbe : buf.length = num_bytes := by omega
        refine ⟨fun hlt => absurd hlt (by omega), fun _ => ?_⟩
        refine ⟨f :: rest, ?_, ?_, hne⟩
        · rw [← hbe, List.take_left]
        · rw [← hbe, List.drop_left]

/-- Reading `n` bytes from a stream holding at least `n` succeeds with exactly
the first `n` bytes; the leftover stream carries exactly the unread bytes. -/
theorem recv_exact_of_le (frags : List (List Nat)) (n : Nat)
    (hne : ∀ f ∈ frags, f ≠ []) (hn : n ≤ frags.flatten.length) :
    ∃ rest, recv_exact frags n = some (frags.flatten.take n, rest) ∧
      rest.flatten = frags.flatten.drop n := by
  obtain ⟨rest, hr, hjr, _⟩ := (recv_exact_go_spec frags [] n (by simp) hne).2
    (by simpa using hn)
  exact ⟨rest, by simpa using hr, by simpa using hjr⟩

/-- C5: `recv_exact(n)` either returns exactly the first `n` bytes of the
stream, or fails with `None` — never a partial result — when the stream ends
before `n` bytes are accumulated; and `recv_exact(0)` succeeds with the empty
byte string without touching the transport (the stream is left untouched). -/
theorem recv_exact_exact_or_eos (frags : List (List Nat)) (n : Nat)
    (hne : ∀ f ∈ frags, f ≠ []) :
    recv_exact frags 0 = some ([], frags) ∧
    (n ≤ frags.flatten.length →
      ∃ rest, recv_exact frags n = some (frags.flatten.take n, rest) ∧
        rest.flatten = frags.flatten.drop n) ∧
    (frags.flatten.length < n → recv_exact frags n = none) := by
  refine ⟨?_, fun hle => recv_exact_of_le frags n hne hle, fun hlt => ?_⟩
  · cases frags <;> rfl
  · exact (recv_exact_go_spec frags [] n (by simp) hne).1 (by simpa using hlt)

/-- Witness for C5 at a concrete stream: `[[1], [2, 3]]` holds 3 bytes, so
requesting 4 fails with `none`. -/
theorem recv_exact_exact_or_eos_witness :
    recv_exact [[1], [2, 3]] 4 = none :=
  (recv_exact_exact_or_eos [[1], [2, 3]] 4 (by decide)).2.2 (by decide)

/-- C6: over any partition of a byte sequence into non-empty delivery
fragments, `recv_exact(n)` returns the identical `n`-byte result as over the
single-delivery stream carrying all the bytes at once. -/
theorem recv_exact_fragmentation_indep (s : List Nat) (frags : List (List Nat))
    (n : Nat) (hne : ∀ f ∈ frags, f ≠ []) (hflat : frags.flatten = s)
    (hn : n ≤ s.length) :
    ∃ r1 r2, recv_exact frags n = some (s.take n, r1) ∧
      recv_exact [s] n = some (s.take n, r2) := by
  subst hflat
  obtain ⟨r1, hr1, _⟩ := recv_exact_of_le frags n hne hn
  rcases Nat.eq_zero_or_pos n with rfl | hpos
  · exact ⟨r1, [frags.flatten], hr1, by simp [recv_exact, recv_exact_go]⟩
  · have hsne : frags.flatten ≠ [] := by
      intro hnil
      rw [hnil] at hn
      simp at hn
      omega
    have hone : ∀ f ∈ [frags.flatten], f ≠ [] := by
      intro f hf
      rcases List.mem_cons.1 hf with rfl | hf
      · exact hsne
      · simp at hf
    obtain ⟨r2, hr2, _⟩ := recv_exact_of_le [frags.flatten] n hone
      (by simpa using hn)
    refine ⟨r1, r2, hr1, ?_⟩
    rw [hr2]
    simp

/-- Witness for C6: three single-byte deliveries against one delivery of all
three bytes, reading two bytes. -/
theorem recv_exact_fragmentation_indep_witness :
    ∃ r1 r2, recv_exact [[1], [2], [3]] 2 = some ([1, 2], r1) ∧
      recv_exact [[1, 2, 3]] 2 = some ([1, 2], r2) :=
  recv_exact_fragmentation_indep [1, 2, 3] [[1], [2], [3]] 2
    (by decide) (by decide) (by decide)

/-! ## The response decoder -/

/-- C1 (divergence witness): decoding `01 D2 00 00 00 00 00 00 00 00` — a
status-210 response with `size = 0` — leaves `payload = None`, not the empty
byte string `b""` the specification requires: `payload` is initialised to
`None` and `if size > 0` skips the assignment, so the zero-file success case
is not given a non-null payload (and the unguarded list-operation
`resp["payload"]` iteration then raises `TypeError`). -/
theorem receive_response_size_zero_null_payload :
    receive_response [[0x01, 0xD2, 0x00, 0x00, 0x00, 0x00, 0x00, 0x00, 0x00, 0x00]] =
      some ({ version := 1, status := 210, name_len := 0, filename := none,
              size := some 0, payload := none }, [[0x00]]) := by decide

/-- C2 (divergence witness): a stream that announces a 5-byte payload and then
ends (`01 D2 00 00 00 05 00 00 00`) does not fail the decode: the payload read
`payload = recv_exact(size)` is the only read not followed by
`if not data: return None`, so the decoder returns a filled response carrying
`payload = None` instead of the failure variant. -/
theorem receive_response_payload_eof_not_failure :
    receive_response [[0x01, 0xD2, 0x00, 0x00, 0x00, 0x05, 0x00, 0x00, 0x00]] =
      some ({ version := 1, status := 210, name_len := 0, filename := none,
              size := some 5, payload := none }, []) ∧
    receive_response [[0x01, 0xD2, 0x00, 0x00, 0x00, 0x05, 0x00, 0x00, 0x00]] ≠
      none := by decide

/-- Every response produced by the size/payload phase carries the status it
was given. -/
theorem receive_response_tail_status (v st nl : Nat) (fn : Option (List Nat))
    (s : List (List Nat)) (r : Response) (rest : List (List Nat))
    (h : receive_response_tail v st nl fn s = some (r, rest)) : r.status = st := by
  simp only [receive_response_tail] at h
  split at h
  · split at h
    · cases h
    · split at h
      · split at h
        · cases h
          rfl
        · cases h
          rfl
      · cases h
        rfl
  · cases h
    rfl

/-- For a status outside `{210, 211}` the size/payload phase reads nothing and
returns the header fields with `size = payload = None`. -/
theorem receive_response_tail_other (v st nl : Nat) (fn : Option (List Nat))
    (s : List (List Nat)) (h210 : st ≠ 210) (h211 : st ≠ 211) :
    receive_response_tail v st nl fn s =
      some ({ version := v, status := st, name_len := nl, filename := fn,
              size := none, payload := none }, s) := by
  simp only [receive_response_tail]
  rw [if_neg (by tauto)]

/-- C9: whenever the decoder returns a response whose status is neither 210
nor 211 — unknown status codes included — the result has `size = None` and
`payload = None`, and the stream it leaves behind is exactly the one the
header reads (version, status, name_len, filename) leave behind: no bytes
beyond the header are consumed. -/
theorem receive_response_other_status (frags : List (List Nat)) (r : Response)
    (rest : List (List Nat)) (hdec : receive_response frags = some (r, rest))
    (h210 : r.status ≠ 210) (h211 : r.status ≠ 211) :
    r.size = none ∧ r.payload = none ∧
    read_header frags = some (r.version, r.status, r.name_len, r.filename, rest) := by
  simp only [receive_response] at hdec
  cases h1 : recv_exact frags 1 with
  | none => rw [h1] at hdec; cases hdec
  | some p1 =>
    obtain ⟨vb, s1⟩ := p1
    rw [h1] at hdec
    simp only at hdec
    cases h2 : recv_exact s1 2 with
    | none => rw [h2] at hdec; cases hdec
    | some p2 =>
      obtain ⟨sb, s2⟩ := p2
      rw [h2] at hdec
      simp only at hdec
      cases h3 : recv_exact s2 2 with
      | none => rw [h3] at hdec; cases hdec
      | some p3 =>
        obtain ⟨nb, s3⟩ := p3
        rw [h3] at hdec
        simp only at hdec
        by_cases hnl : from_le nb > 0
        · rw [if_pos hnl] at hdec
          cases h4 : recv_exact s3 (from_le nb) with
          | none => rw [h4] at hdec; cases hdec
          | some p4 =>
            obtain ⟨fb, s4⟩ := p4
            rw [h4] at hdec
            simp only at hdec
            have hst := receive_response_tail_status _ _ _ _ _ _ _ hdec
            rw [receive_response_tail_other _ _ _ _ _ (hst ▸ h210) (hst ▸ h211)] at hdec
            cases hdec
            refine ⟨rfl, rfl, ?_⟩
            simp only [read_header, h1, h2, h3, h4, if_pos hnl]
        · rw [if_neg hnl] at hdec
          have hst := receive_response_tail_status _ _ _ _ _ _ _ hdec
          rw [receive_response_tail_other _ _ _ _ _ (hst ▸ h210) (hst ▸ h211)] at hdec
          cases hdec
          refine ⟨rfl, rfl, ?_⟩
          simp only [read_header, h1, h2, h3, if_neg hnl]

/-- Witness for C9: a status-1001 response followed by two unread stream
bytes; the decoder leaves them unconsumed. -/
theorem receive_response_other_status_witness :
    receive_response [[1, 0xE9, 0x03, 0, 0], [9, 9]] =
      some ({ version := 1, status := 1001, name_len := 0, filename := none,
              size := none, payload := none }, [[9, 9]]) ∧
    read_header [[1, 0xE9, 0x03, 0, 0], [9, 9]] =
      some (1, 1001, 0, none, [[9, 9]]) := by
  refine ⟨by decide, ?_⟩
  have h := receive_response_other_status [[1, 0xE9, 0x03, 0, 0], [9, 9]]
    { version := 1, status := 1001, name_len := 0, filename := none,
      size := none, payload := none } [[9, 9]] (by decide) (by decide) (by decide)
  exact h.2.2

/-! ## Local write of the restore operation -/

/-- C3 (counterexample): for a response with the non-error status 212 and a
null payload, the claim demands the outcome "fail loudly with the destination
left untouched" (`failedNoTouch`); the code instead reaches
`open(save_as, "wb")`, which creates/truncates the destination before
`f.write(None)` raises `TypeError`.  The response below is
`{version 1, status 212, name_len 0, no filename, no size, null payload}`. -/
theorem restore_null_payload_touches_file :
    restore_outcome ⟨1, 212, 0, none, none, none⟩ ≠ WriteOutcome.failedNoTouch ∧
    restore_outcome ⟨1, 212, 0, none, none, none⟩ =
      WriteOutcome.truncatedThenError := by decide

/-- C3 (amended): statuses 1001 and 1003 cause no local write; any other
status writes a non-null payload verbatim to the destination; a null payload
with a non-error status fails loudly (a `TypeError` from `f.write(None)`), but
only after `open(..., "wb")` has already created/truncated the destination
file. -/
theorem restore_write_behavior (r : Response) :
    ((r.status = 1001 ∨ r.status = 1003) →
      restore_outcome r = WriteOutcome.noWrite) ∧
    (¬(r.status = 1001 ∨ r.status = 1003) →
      (∀ p, r.payload = some p → restore_outcome r = WriteOutcome.wrote p) ∧
      (r.payload = none →
        restore_outcome r = WriteOutcome.truncatedThenError)) := by
  refine ⟨fun h => ?_, fun h => ⟨fun p hp => ?_, fun hp => ?_⟩⟩
  · rcases h with h | h <;> simp [restore_outcome, h]
  · rw [not_or] at h
    simp [restore_outcome, h.1, h.2, write_file, hp]
  · rw [not_or] at h
    simp [restore_outcome, h.1, h.2, write_file, hp]

/-- Witness for C3 (amended) at concrete responses: a 1001 response causes no
write, a 210 response with payload `b"hello"` writes those bytes verbatim. -/
theorem restore_write_behavior_witness :
    restore_outcome ⟨1, 1001, 0, none, none, none⟩ = WriteOutcome.noWrite ∧
    restore_outcome ⟨1, 210, 0, none, some 5,
        some [0x68, 0x65, 0x6C, 0x6C, 0x6F]⟩ =
      WriteOutcome.wrote [0x68, 0x65, 0x6C, 0x6C, 0x6F] := by
  constructor
  · exact (restore_write_behavior _).1 (Or.inl rfl)
  · exact ((restore_write_behavior _).2 (by decide)).1 _ rfl

/-! ## The request encoder -/

/-- The encoding `le_bytes` always produces exactly its width in bytes. -/
theorem le_bytes_length (w : Nat) : ∀ v, (le_bytes w v).length = w := by
  induction w with
  | zero => intro v; rfl
  | succ w ih => intro v; simp [le_bytes, ih]

/-- Explicit digit expansion of a 4-byte little-endian encoding. -/
theorem le_bytes_four (v : Nat) :
    le_bytes 4 v = [v % 256, v / 256 % 256, v / 256 / 256 % 256,
      v / 256 / 256 / 256 % 256] := rfl

/-- Explicit digit expansion of a 2-byte little-endian encoding. -/
theorem le_bytes_two (v : Nat) : le_bytes 2 v = [v % 256, v / 256 % 256] := rfl

/-- C4 (counterexample): feeding the request-encoder bytes for
`user_id = 0x01020304, version = 1, op_code = 100, filename = "a.txt"` into
the response decoder does not reproduce any header field — the response
layout starts with a 1-byte version where the request layout has a 4-byte
user id, so the decoder misreads `name_len = 0x0101` and fails on the
filename read. -/
theorem response_decoder_no_roundtrip :
    build_header 0x01020304 1 100 (some "a.txt") =
      some [0x04, 0x03, 0x02, 0x01, 0x01, 0x64, 0x05, 0x00,
            0x61, 0x2E, 0x74, 0x78, 0x74] ∧
    receive_response [[0x04, 0x03, 0x02, 0x01, 0x01, 0x64, 0x05, 0x00,
            0x61, 0x2E, 0x74, 0x78, 0x74]] = none := by decide

/-- C4 (amended): round-trip through a decoder of the request wire layout.
Whenever the encoder succeeds, parsing its output with
`parse_request_header` reproduces `user_id`, `version`, `op_code` and the
encoded filename exactly (an empty filename is indistinguishable from an
absent one, both encode with `name_len = 0`). -/
theorem request_header_roundtrip (user_id version op_code : Nat)
    (filename : Option String) (header : List Nat)
    (hb : build_header user_id version op_code filename = some header) :
    parse_request_header header =
      some (user_id, version, op_code, encode_filename_opt filename) := by
  simp only [build_header] at hb
  split at hb
  case isTrue hrange =>
    obtain ⟨hu, hv, ho⟩ := hrange
    split at hb
    next s =>
      by_cases hemp : s.data.isEmpty
      · rw [if_pos hemp] at hb
        cases hb
        simp only [parse_request_header, le_bytes_four, le_bytes_two,
          encode_filename_opt, List.cons_append, List.nil_append]
        rw [if_pos (by norm_num)]
        rw [if_pos (by norm_num), if_pos hemp]
        simp only [Option.some.injEq, Prod.mk.injEq, and_true, true_and]
        omega
      · rw [if_neg hemp] at hb
        split at hb
        next henc => cases hb
        next enc henc =>
          by_cases hlen : enc.length < 2 ^ 16
          case neg => rw [if_neg hlen] at hb; cases hb
          case pos =>
            rw [if_pos hlen] at hb
            cases hb
            have hmap : enc = s.data.map Char.toNat := by
              simp only [ascii_encode] at henc
              split at henc
              · cases henc; rfl
              · cases henc
            have hnz : enc.length ≠ 0 := by
              rw [hmap]
              simp only [List.length_map, ne_eq, List.length_eq_zero]
              intro hcon
              rw [List.isEmpty_iff] at hemp
              exact hemp hcon
            simp only [parse_request_header, le_bytes_four, le_bytes_two,
              encode_filename_opt, List.cons_append, List.nil_append]
            rw [if_pos (by omega)]
            rw [if_neg (by omega)]
            rw [if_neg hemp, ← hmap]
            simp only [Option.some.injEq, Prod.mk.injEq, and_true, true_and]
            omega
    next =>
      cases hb
      simp only [parse_request_header, le_bytes_four, le_bytes_two,
        encode_filename_opt, List.cons_append, List.nil_append]
      rw [if_pos (by norm_num)]
      rw [if_pos (by norm_num)]
      simp only [Option.some.injEq, Prod.mk.injEq, and_true, true_and]
      omega
  case isFalse => cases hb

/-- Witness for C4 (amended): the concrete backup header round-trips through
the request-layout parser. -/
theorem request_header_roundtrip_witness :
    parse_request_header [0x04, 0x03, 0x02, 0x01, 0x01, 0x64, 0x05, 0x00,
        0x61, 0x2E, 0x74, 0x78, 0x74] =
      some (0x01020304, 1, 100, some [0x61, 0x2E, 0x74, 0x78, 0x74]) := by
  have h := request_header_roundtrip 0x01020304 1 100 (some "a.txt")
    [0x04, 0x03, 0x02, 0x01, 0x01, 0x64, 0x05, 0x00, 0x61, 0x2E, 0x74, 0x78,
     0x74] (by decide)
  rw [h]
  decide

/-- C7: for any in-range field values, an all-ASCII filename of length at most
65535 encodes to the header `<u32 user_id LE | u8 version | u8 op_code |
u16 name_len LE | filename bytes>` of exactly `8 + name_len` bytes, with the
`name_len` field equal to the filename length; a filename that is longer
than 65535 bytes or not ASCII-representable makes the encoder fail, and the
send path then transmits zero bytes. -/
theorem build_header_length_spec (user_id version op_code : Nat) (s : String)
    (file : Option (List Nat))
    (hu : user_id < 2 ^ 32) (hv : version < 256) (ho : op_code < 256) :
    (s.data.all (fun c => c.toNat < 128) = true → s.data.length ≤ 65535 →
      build_header user_id version op_code (some s) =
        some (le_bytes 4 user_id ++ [version, op_code] ++
              le_bytes 2 s.data.length ++ s.data.map Char.toNat) ∧
      (le_bytes 4 user_id ++ [version, op_code] ++
        le_bytes 2 s.data.length ++ s.data.map Char.toNat).length =
          8 + s.data.length) ∧
    (65535 < s.data.length ∨ s.data.all (fun c => c.toNat < 128) = false →
      build_header user_id version op_code (some s) = none ∧
      send_request user_id version op_code (some s) file = ([], false)) := by
  constructor
  · intro hall hlen
    constructor
    · simp only [build_header, if_pos (show _ ∧ _ ∧ _ from ⟨hu, hv, ho⟩)]
      by_cases hemp : s.data.isEmpty
      · rw [if_pos hemp]
        have hd : s.data = [] := List.isEmpty_iff.1 hemp
        simp [hd]
      · rw [if_neg hemp]
        have henc : ascii_encode s = some (s.data.map Char.toNat) := by
          simp only [ascii_encode, if_pos hall]
        split
        next hcon => rw [henc] at hcon; cases hcon
        next enc heq =>
          rw [henc] at heq
          cases heq
          rw [if_pos (by simp only [List.length_map]; omega)]
          rw [List.length_map]
    · simp only [List.length_append, le_bytes_length, List.length_map,
        List.length_cons, List.length_nil]
  · intro hfail
    have hb0 : build_header user_id version op_code (some s) = none := by
      simp only [build_header, if_pos (show _ ∧ _ ∧ _ from ⟨hu, hv, ho⟩)]
      have hne : s.data ≠ [] := by
        intro hnil
        rcases hfail with hlen | hall
        · rw [hnil] at hlen; simp at hlen
        · rw [hnil] at hall; simp at hall
      rw [if_neg (by simpa [List.isEmpty_iff] using hne)]
      split
      · rfl
      next enc heq =>
        rcases hfail with hlen | hall
        · have hmap : enc = s.data.map Char.toNat := by
            simp only [ascii_encode] at heq
            split at heq
            · cases heq; rfl
            · cases heq
          rw [if_neg (by rw [hmap]; simp only [List.length_map]; omega)]
        · simp only [ascii_encode, hall] at heq
          cases heq
    exact ⟨hb0, by simp [send_request, hb0]⟩

/-- Witness for C7 at concrete inputs: the filename `"a"` (ASCII, length 1)
gives a 9-byte header; applying the failure half to a 1-character non-ASCII
filename (`"é"`, code point 233) gives a failed encode with zero bytes
transmitted. -/
theorem build_header_length_spec_witness :
    build_header 1 1 100 (some "a") =
      some (le_bytes 4 1 ++ [1, 100] ++ le_bytes 2 1 ++ [97]) ∧
    send_request 1 1 100 (some "é") none = ([], false) := by
  constructor
  · have h := ((build_header_length_spec 1 1 100 "a" none (by decide)
      (by decide) (by decide)).1 (by decide) (by decide)).1
    rw [h]
    decide
  · exact ((build_header_length_spec 1 1 100 "é" none (by decide) (by decide)
      (by decide)).2 (Or.inr (by decide))).2

/-- C8: the backup request for `user_id = 0x01020304, version = 1,
op_code = 100, filename = "a.txt"` transmits exactly the header bytes
`04 03 02 01 01 64 05 00 61 2E 74 78 74`, then the file size as a 4-byte
little-endian integer, then the file content. -/
theorem send_backup_request_bytes (content : List Nat)
    (h : content.length < 2 ^ 32) :
    send_request 0x01020304 1 100 (some "a.txt") (some content) =
      ([0x04, 0x03, 0x02, 0x01, 0x01, 0x64, 0x05, 0x00,
        0x61, 0x2E, 0x74, 0x78, 0x74] ++ le_bytes 4 content.length ++ content,
       true) := by
  have hb : build_header 0x01020304 1 100 (some "a.txt") =
      some [0x04, 0x03, 0x02, 0x01, 0x01, 0x64, 0x05, 0x00,
            0x61, 0x2E, 0x74, 0x78, 0x74] := by decide
  have hlt : content.length < 4294967296 := h
  simp [send_request, hb, hlt]

/-- Witness for C8 with the two-byte file content `68 69`. -/
theorem send_backup_request_bytes_witness :
    send_request 0x01020304 1 100 (some "a.txt") (some [0x68, 0x69]) =
      ([0x04, 0x03, 0x02, 0x01, 0x01, 0x64, 0x05, 0x00,
        0x61, 0x2E, 0x74, 0x78, 0x74, 0x02, 0x00, 0x00, 0x00, 0x68, 0x69],
       true) := by
  rw [send_backup_request_bytes [0x68, 0x69] (by decide)]
  decide

/-- C10: the empty-string filename encodes to exactly the bytes of the
no-filename header: the 8-byte header with a zero `name_len` field and no
filename bytes. -/
theorem build_header_empty_filename (user_id version op_code : Nat)
    (hu : user_id < 2 ^ 32) (hv : version < 256) (ho : op_code < 256) :
    build_header user_id version op_code (some "") =
      build_header user_id version op_code none ∧
    build_header user_id version op_code none =
      some (le_bytes 4 user_id ++ [version, op_code] ++ le_bytes 2 0) ∧
    (le_bytes 4 user_id ++ [version, op_code] ++ le_bytes 2 0).length = 8 := by
  refine ⟨rfl, ?_, ?_⟩
  · simp only [build_header, if_pos (show _ ∧ _ ∧ _ from ⟨hu, hv, ho⟩)]
  · simp [List.length_append, le_bytes_length]

/-- Witness for C10 at concrete field values. -/
theorem build_header_empty_filename_witness :
    build_header 7 1 202 (some "") = build_header 7 1 202 none ∧
    build_header 7 1 202 none = some [7, 0, 0, 0, 1, 202, 0, 0] := by
  have h := build_header_empty_filename 7 1 202 (by decide) (by decide)
    (by decide)
  refine ⟨h.1, ?_⟩
  rw [h.2.1]
  decide
